import Mathlib

/-!
Verification development for the `astwro.pydaophot` process-automation core.

The development shallowly embeds the two core source modules:

* `pydaophot/OutputProviders.py` — the chained, pull-based output-stream
  processors (caching `get_output_stream`, line-by-line `consume`, the
  `Command:` sentinel predicate `is_last_one`, and the regex-based typed
  accessors `get_picture_size` / `get_options`);
* `astwro/pydaophot/Daophot.py` — the `Daophot` runner commands
  (`ATtach`, `OPtions`, `FInd`, `PHotometry`, `PIck`, `PSf`, `SOrt`,
  `SUbstar`, `GRoup`, `NEda`).

The base-class `DAORunner` operations (`_get_ready_for_commands`,
`_prepare_input_file`, `_prepare_output_file`, `_insert_processing_step`,
`run`) are not part of the sources at hand; following the specification they
are modelled as opaque effects recorded, in call order, in an event trace so
that ordering and error-before-effect properties can be stated.
-/

namespace Astwro

/-! ## Character classes (ASCII approximation of Python `re` classes) -/

/-- Python `\s` whitespace class (ASCII part): space, tab, newline,
carriage return, vertical tab, form feed. -/
def pyIsSpace (c : Char) : Bool :=
  c = ' ' || c = '\t' || c = '\n' || c = '\r' || c = '\x0b' || c = '\x0c'

/-- Python `\w` word-character class (ASCII part): letters, digits, underscore. -/
def isWordChar (c : Char) : Bool :=
  c.isAlphanum || c = '_'

/-- Python `str.lower()` (ASCII part), as a character map. -/
def pyLower (s : String) : String :=
  ⟨s.toList.map Char.toLower⟩

/-- Value of a nonempty decimal digit string (used for `int(match.group(i))`). -/
def digitsToNat (l : List Char) : Nat :=
  l.foldl (fun acc c => acc * 10 + (c.toNat - 48)) 0

/-- Occurrence test for a pattern inside a character list; models
`re.compile(<literal>).search(line) is not None` for a literal pattern. -/
def occursIn (pat : List Char) : List Char → Bool
  | [] => pat.isEmpty
  | c :: rest => pat.isPrefixOf (c :: rest) || occursIn pat rest

/-! ## `OutputProviders.py`: chained stream processors -/

/-- A (physical) output stream, modelled as the list of its lines. -/
abbrev DaoStream := List String

/-- Mutable state of an `OutputProvider` (`OutputProviders.py`, class
`OutputProvider`): the cached `self.stream` plus two ghost counters
recording how many times `self.consume()` was invoked and how many times
the upstream `prev_in_chain.get_output_stream()` was pulled. -/
structure ProviderState where
  stream : Option DaoStream
  consumeCalls : Nat
  upstreamPulls : Nat
deriving DecidableEq, Repr

/-- `OutputProvider.get_output_stream`: if `self.stream is None`, pull the
stream from the upstream link (`up` is the value the upstream call returns),
store it, call `self.consume()` and return it; otherwise return the cached
stream untouched. -/
def OutputProvider.get_output_stream (up : Option DaoStream) (s : ProviderState) :
    Option DaoStream × ProviderState :=
  match s.stream with
  | some st => (some st, s)
  | none => (up, ⟨up, s.consumeCalls + 1, s.upstreamPulls + 1⟩)

/-- `OutputBufferedProcessor.get_buffer`: triggers `get_output_stream` (hence
consumption, if not yet done) and returns the accumulated buffer. -/
def OutputBufferedProcessor.get_buffer (up : Option DaoStream) (buffer : String)
    (s : ProviderState) : String × ProviderState :=
  (buffer, (OutputProvider.get_output_stream up s).2)

/-- `DaophotCommandOutputProcessor.is_last_one`: the last line of a command
output block is a `Command:` line; the first two lines are skipped to
tolerate the leading `Command:` echo (`counter > 2 and
r_command.search(line) is not None`). -/
def DaophotCommandOutputProcessor.is_last_one (line : String) (counter : Nat) : Bool :=
  decide (counter > 2) && occursIn "Command:".toList line.toList

/-- `OutputLinesProcessor.consume` starting from a given line counter: pull
lines one by one, incrementing the counter, handing each to `process_line`
(whose last-line verdict is `is_last`), and stop right after the first line
reported as last. Returns the consumed lines and the rest of the stream
(where the upstream cursor is left). -/
def OutputLinesProcessor.consumeFrom (is_last : String → Nat → Bool) :
    Nat → List String → List String × List String
  | _, [] => ([], [])
  | counter, l :: ls =>
    if is_last l (counter + 1) then ([l], ls)
    else
      let r := OutputLinesProcessor.consumeFrom is_last (counter + 1) ls
      (l :: r.1, r.2)

/-- `OutputLinesProcessor.consume`: the counter starts at 0. -/
def OutputLinesProcessor.consume (is_last : String → Nat → Bool)
    (stream : List String) : List String × List String :=
  OutputLinesProcessor.consumeFrom is_last 0 stream

/-! ### Regex models

`r_pic_size = (?<=Picture size:\s\s\s)([0-9]+)\s+([0-9]+)` and
`r_opt = \b(\w\w)[^=\n]*=\s*(-?[0-9]+\.[0-9]*)`, as deterministic scanners.
Both patterns are backtracking-free because each greedy sub-pattern is
followed by a character it can never match, so a leftmost-match scan
position by position is the exact `re.search` / `re.findall` behaviour. -/

/-- The fixed-width lookbehind `(?<=Picture size:\s\s\s)` checked on the
reversed prefix before the match position. -/
def lookbehindPicSize (pre : List Char) : Bool :=
  match pre with
  | c1 :: c2 :: c3 :: rest =>
    pyIsSpace c1 && pyIsSpace c2 && pyIsSpace c3 &&
      List.isPrefixOf "Picture size:".toList.reverse rest
  | _ => false

/-- The main pattern `([0-9]+)\s+([0-9]+)` matched at the current position;
returns the two captured numbers. -/
def picSizeMain (l : List Char) : Option (Nat × Nat) :=
  let p1 := l.span Char.isDigit
  if p1.1.isEmpty then none else
  let p2 := p1.2.span pyIsSpace
  if p2.1.isEmpty then none else
  let p3 := p2.2.span Char.isDigit
  if p3.1.isEmpty then none else
  some (digitsToNat p1.1, digitsToNat p3.1)

/-- Leftmost-match scan for `r_pic_size.search`; `pre` is the reversed prefix
already passed over. -/
def searchPicSizeGo (pre : List Char) : List Char → Option (Nat × Nat)
  | [] => none
  | c :: rest =>
    if lookbehindPicSize pre then
      match picSizeMain (c :: rest) with
      | some r => some r
      | none => searchPicSizeGo (c :: pre) rest
    else searchPicSizeGo (c :: pre) rest

/-- `r_pic_size.search(buf)`: the two numbers of the leftmost
`Picture size:   X  Y` occurrence, if any. -/
def searchPicSize (buf : String) : Option (Nat × Nat) :=
  searchPicSizeGo [] buf.toList

/-- The tail `-?[0-9]+\.[0-9]*` of `r_opt`, matched at the current position;
returns the matched characters and the remainder. -/
def numTail (l : List Char) : Option (List Char × List Char) :=
  let neg : List Char × List Char :=
    match l with
    | '-' :: t => (['-'], t)
    | _ => ([], l)
  let p1 := neg.2.span Char.isDigit
  if p1.1.isEmpty then none else
  match p1.2 with
  | '.' :: r2 =>
    let p2 := r2.span Char.isDigit
    some (neg.1 ++ p1.1 ++ '.' :: p2.1, p2.2)
  | _ => none

/-- One attempted match of `r_opt` at the current position. `prevW` says
whether the character just before the position is a word character (for the
`\b` boundary). On success returns the two captured groups, whether the last
matched character is a word character, and the remainder after the match. -/
def optMatchAt (prevW : Bool) (l : List Char) :
    Option ((String × String) × Bool × List Char) :=
  match l with
  | c1 :: c2 :: rest =>
    if !prevW && isWordChar c1 && isWordChar c2 then
      let p1 := rest.span (fun c => !(c = '=' || c = '\n'))
      match p1.2 with
      | '=' :: r2 =>
        let p2 := r2.span pyIsSpace
        match numTail p2.2 with
        | some (num, r4) =>
          some ((⟨[c1, c2]⟩, ⟨num⟩),
                isWordChar (num.getLastD '.'), r4)
        | none => none
      | _ => none
    else none
  | _ => none

/-- Non-overlapping leftmost scan of `r_opt.findall`; the fuel bounds the
number of scan steps (each step consumes at least one character, so an
initial fuel of the input length suffices and is never exhausted). -/
def optFindallGo : Nat → Bool → List Char → List (String × String)
  | 0, _, _ => []
  | _ + 1, _, [] => []
  | fuel + 1, prevW, c :: rest =>
    match optMatchAt prevW (c :: rest) with
    | some (kv, lastW, after) => kv :: optFindallGo fuel lastW after
    | none => optFindallGo fuel (isWordChar c) rest

/-- `r_opt.findall(buf)`: all option `XX ... = nnn.dd` matches, in order. -/
def optFindall (buf : String) : List (String × String) :=
  optFindallGo (buf.length + 1) false buf.toList

/-- One Python `dict` assignment `d[k] = v`: replace the value of an existing
key in place, else append the new pair. -/
def pyDictInsert (d : List (String × String)) (kv : String × String) :
    List (String × String) :=
  if d.any (fun p => p.1 = kv.1) then
    d.map (fun p => if p.1 = kv.1 then (p.1, kv.2) else p)
  else d ++ [kv]

/-- `dict(pairs)` with Python duplicate-key semantics (first-occurrence
order, last value wins). -/
def pyDict (l : List (String × String)) : List (String × String) :=
  l.foldl pyDictInsert []

/-- `DaophotAttachOP.get_picture_size` on an already-consumed buffer: the
`(x, y)` picture size extracted by `r_pic_size`, or the
`daophot failed to attach image file` exception if the pattern is absent. -/
def DaophotAttachOP.get_picture_size (buf : String) : Except String (Nat × Nat) :=
  match searchPicSize buf with
  | none => .error ("daophot failed to attach image file. Output buffer:\n " ++ buf)
  | some r => .ok r

/-- `DaophotOptOP.get_options` on an already-consumed buffer (first call,
`self.options is None`): the `dict(r_opt.findall(buf))` of parsed options, or
the `daophot failed to present options` exception when no `RE` option was
parsed. -/
def DaophotOptOP.get_options (buf : String) : Except String (List (String × String)) :=
  let d := pyDict (optFindall buf)
  if d.any (fun p => p.1 = "RE") then .ok d
  else .error ("daophot failed to present options. Output buffer:\n " ++ buf)

/-! ## `Daophot.py`: the daophot command runner

The runner-level primitives live in the `DAORunner` base class, outside the
sources at hand. Modelled from the spec: each primitive is an opaque effect
recorded in an event trace, in exactly the order the `Daophot` methods invoke
them. -/

/-- Modelled from the spec: one runner-level effect of a `Daophot` method.
`getReady` is `_get_ready_for_commands` (full flush of pending command
blocks), `prepareInput`/`prepareOutput` are the WorkingArea staging calls
(`_prepare_input_file` takes `None` for an absent optional file),
`insertStep` is `_insert_processing_step` (enqueue of one command block with
its output processor), and `run` is `self.run()`. -/
inductive Event
  | getReady
  | prepareInput (file : Option String)
  | prepareOutput (file : String)
  | insertStep (commands : String) (onBeginning : Bool)
  | run
deriving DecidableEq, Repr

/-- The exceptions `Daophot` methods raise: `Daophot.RunnerException`,
`Daophot.RunnerValueError` and Python's built-in `NotImplementedError`. -/
inductive DaoError
  | runnerException (msg : String)
  | runnerValueError (msg : String)
  | notImplementedError (msg : String)
deriving DecidableEq, Repr

/-- Outcome of one `Daophot` method call: the runner effects performed, in
order, and the exception raised (if any) after those effects. -/
abbrev DaoResult := List Event × Option DaoError

/-- Modelled from the spec: `_prepare_input_file` / `_prepare_output_file`
(in the `DAORunner` base, not under the sources at hand) stage a file under a
short canonical name in the WorkingArea and return its local name; the local
name is modelled as the given name itself. -/
def localOf (f : String) : String := f

/-- Local name for an optional input file: `_prepare_input_file(None)` yields
an empty answer line (accept the child tool's default). -/
def localOfOpt : Option String → String
  | none => ""
  | some f => localOf f

/-- Uppercase hexadecimal digit (for Python `format(i, 'X')`). -/
def toHexUpperDigit (n : Nat) : Char :=
  if n < 10 then Char.ofNat (48 + n) else Char.ofNat (55 + n)

/-- Uppercase hexadecimal rendering of a natural number, as in Python
`'{:X}'.format(n)` (used for aperture labels `A1`..`AC`). -/
def toHexUpper (n : Nat) : String :=
  if n < 16 then ⟨[toHexUpperDigit n]⟩
  else toHexUpper (n / 16) ++ ⟨[toHexUpperDigit (n % 16)]⟩
termination_by n
decreasing_by exact Nat.div_lt_self (by omega) (by omega)

/-- The aperture override lines `A1=..`, `A2=..`, ... of `PHotometry` and
`NEda` (`for i, ap in enumerate(apertures)`), starting at index `i`.
Aperture values are carried as their rendered text. -/
def apertureLinesFrom (i : Nat) : List String → String
  | [] => ""
  | ap :: rest =>
    "A" ++ toHexUpper (i + 1) ++ "=" ++ ap ++ "\n" ++ apertureLinesFrom (i + 1) rest

/-- All aperture override lines, indices starting at 0. -/
def apertureLines (aps : List String) : String := apertureLinesFrom 0 aps

/-- Python `'%.2f' % float(v)` for an integral value. -/
def format2f (v : Int) : String := toString v ++ ".00"

/-- Python `'{:f}'.format(float(v))` for an integral value. -/
def format6f (v : Int) : String := toString v ++ ".000000"

/-- `os.path.splitext(base)[0]` for a path component: strip the extension at
the last dot, not counting the component's leading dots. -/
def splitextRootAux (base : List Char) : List Char :=
  let lead := base.takeWhile (fun c => c = '.')
  let rest := base.dropWhile (fun c => c = '.')
  let rootRev := rest.reverse.dropWhile (fun c => !(c = '.'))
  match rootRev with
  | [] => lead ++ rest
  | _ :: tail => lead ++ tail.reverse

/-- `os.path.splitext(p)[0]`: the path without its final extension. -/
def splitextRoot (p : String) : String :=
  let revCs := p.toList.reverse
  let baseRev := revCs.takeWhile (fun c => !(c = '/'))
  let dirRev := revCs.dropWhile (fun c => !(c = '/'))
  ⟨dirRev.reverse ++ splitextRootAux baseRev.reverse⟩

/-- The run step appended by eager mode (`if not self.batch_mode: self.run()`). -/
def runTail (batch_mode : Bool) : List Event :=
  if batch_mode then [] else [Event.run]

/-- The shape-shifting `options` argument of `OPtions` / `_enqueueOPtions`:
a filename (string with `value=None`), a single key with a value, or a
dict / list of pairs (a `None` value drops the pair). Option values are
integral, rendered by `%.2f`. -/
inductive OptionsArg
  | file (path : String)
  | single (key : String) (value : Int)
  | pairs (l : List (String × Option Int))
deriving DecidableEq, Repr

/-- The `XX=nn.nn` lines of an `OPT` command block:
`''.join('%s=%.2f\n' % (k, float(v)) for k, v in options if v is not None)`. -/
def optionCommandLines (opts : List (String × Option Int)) : String :=
  String.join (opts.filterMap (fun p => p.2.map (fun v => p.1 ++ "=" ++ format2f v ++ "\n")))

/-- `Daophot._enqueueOPtions` (effects only): for a filename the runner first
flushes, stages the file and sends `OPT`, the filename and a blank line; for
explicit options it sends `OPT`, a blank line (decline the filename prompt),
the `XX=nn.nn` lines and a closing blank line. -/
def enqueueOPtions (arg : OptionsArg) (on_beginning : Bool) : List Event :=
  match arg with
  | .file path =>
    [.getReady, .prepareInput (some path),
     .insertStep ("OPT\n" ++ localOf path ++ "\n\n") on_beginning]
  | .single k v =>
    [.insertStep ("OPT\n\n" ++ optionCommandLines [(k, some v)] ++ "\n") on_beginning]
  | .pairs l =>
    [.insertStep ("OPT\n\n" ++ optionCommandLines l ++ "\n") on_beginning]

/-- `Daophot.ATtach`: batch mode only; flushes, stages the image and enqueues
`ATTACH <local image>`. -/
def Daophot.ATtach (batch_mode : Bool) (image_file : String) : DaoResult :=
  if !batch_mode then
    ([], some (.runnerException "ATtach is intented for \"batch\" mode only. Use image property."))
  else
    ([.getReady, .prepareInput (some image_file),
      .insertStep ("ATTACH " ++ localOf image_file ++ "\n") false], none)

/-- `Daophot.OPtions`: batch mode only; flushes, then delegates to
`_enqueueOPtions`. -/
def Daophot.OPtions (batch_mode : Bool) (arg : OptionsArg) : DaoResult :=
  if !batch_mode then
    ([], some (.runnerException "OPtions is intented for \"batch\" mode only. Use set_options()."))
  else
    ([Event.getReady] ++ enqueueOPtions arg false, none)

/-- `Daophot.FInd`: flushes, stages the output star list and enqueues
`FIND`, the frame counts, the star-list name and the `yes` confirmation;
eager mode then runs. -/
def Daophot.FInd (batch_mode : Bool) (frames_av frames_sum : Nat)
    (starlist_file : String) : DaoResult :=
  let l := localOf starlist_file
  let commands :=
    "FIND\n" ++ toString frames_av ++ "," ++ toString frames_sum ++ "\n" ++ l ++ "\nyes\n"
  ([.getReady, .prepareOutput starlist_file, .insertStep commands false] ++
     runTail batch_mode, none)

/-- `Daophot.PHotometry`: validates the `photoopt`/`IS`/`OS`/`apertures`
combination and the 12-aperture limit before any effect; then flushes, stages
the three files and enqueues the `PHOT` block; eager mode then runs. -/
def Daophot.PHotometry (batch_mode : Bool) (photoopt : Option String)
    (IS OS : Int) (apertures : Option (List String))
    (stars photometry_file : String) : DaoResult :=
  if photoopt = none && (apertures = none || IS = 0 || OS = 0) then
    ([], some (.runnerValueError
      "Apertures and IS and OS must be provided, explicitly or as photoopt file"))
  else
    match apertures.getD [] with
    | aps =>
      if aps.length > 12 then
        ([], some (.runnerValueError
          "apertures apertures list can contain maximum 12 elements"))
      else
        let commands :=
          "PHOT\n" ++ localOfOpt photoopt ++ "\n" ++
            (if IS ≠ 0 then "IS=" ++ toString IS ++ "\n" else "") ++
            (if OS ≠ 0 then "OS=" ++ toString OS ++ "\n" else "") ++
            apertureLines aps ++
            "\n" ++ localOf stars ++ "\n" ++ localOf photometry_file ++ "\n"
        ([.getReady, .prepareInput photoopt, .prepareInput (some stars),
          .prepareOutput photometry_file, .insertStep commands false] ++
           runTail batch_mode, none)

/-- `Daophot.PIck`: flushes, stages photometry input and picked-stars
output, enqueues the `PICK` block; eager mode then runs. -/
def Daophot.PIck (batch_mode : Bool) (number_of_stars_to_pick : Nat)
    (faintest_mag : Int) (photometry picked_stars_file : String) : DaoResult :=
  let commands :=
    "PICK\n" ++ localOf photometry ++ "\n" ++
      toString number_of_stars_to_pick ++ "," ++ format6f faintest_mag ++ "\n" ++
      localOf picked_stars_file ++ "\n"
  ([.getReady, .prepareInput (some photometry), .prepareOutput picked_stars_file,
    .insertStep commands false] ++ runTail batch_mode, none)

/-- `Daophot.PSf`: flushes, stages the two inputs and the three outputs
(PSF, `.nei` neighbours, `i.err`), enqueues the `PSF` block; eager mode then
runs. -/
def Daophot.PSf (batch_mode : Bool) (photometry psf_stars psf_file : String) :
    DaoResult :=
  let l_psf := localOf psf_file
  let commands :=
    "PSF\n" ++ localOf photometry ++ "\n" ++ localOf psf_stars ++ "\n" ++ l_psf ++ "\n"
  ([.getReady, .prepareInput (some photometry), .prepareInput (some psf_stars),
    .prepareOutput psf_file, .prepareOutput (splitextRoot l_psf ++ ".nei"),
    .prepareOutput "i.err", .insertStep commands false] ++ runTail batch_mode, none)

/-- `Daophot.SOrt`: flushes, validates a string `by` argument
(case-insensitively one of `id`, `x`, `y`, `mag`), then unconditionally
raises `NotImplementedError`; nothing is ever enqueued or run. The `by`
parameter is renamed `sortBy` (Lean keyword); a numeric `by` is the left
summand. -/
def Daophot.SOrt (_batch_mode : Bool) (_file : String) (sortBy : Int ⊕ String)
    (_decreasing : Option Bool) : DaoResult :=
  match sortBy with
  | Sum.inr s =>
    let sl := pyLower s
    if sl = "id" || sl = "x" || sl = "y" || sl = "mag" then
      ([Event.getReady], some (.notImplementedError "SORT command not implemented"))
    else
      ([Event.getReady], some (.runnerValueError
        "parameter by, if string must be either: \"id\", \"x\", \"y\" or \"mag\""))
  | Sum.inl _ =>
    ([Event.getReady], some (.notImplementedError "SORT command not implemented"))

/-- `Daophot.SUbstar`: flushes, stages the output image and the inputs, and
enqueues the `SUB` block whose confirmation line is `y` plus the keep-list
when `leave_in` is given, else `n`; eager mode then runs. -/
def Daophot.SUbstar (batch_mode : Bool) (subtract : String)
    (leave_in : Option String) (subtracted_image psf_file : String) : DaoResult :=
  let l_out := localOf subtracted_image
  let l_sub := localOf subtract
  let l_psf := localOf psf_file
  match leave_in with
  | some lv =>
    let commands :=
      "SUB\n" ++ l_psf ++ "\n" ++ l_sub ++ "\ny\n" ++ localOf lv ++ "\n" ++ l_out ++ "\n"
    ([.getReady, .prepareOutput subtracted_image, .prepareInput (some subtract),
      .prepareInput (some psf_file), .prepareInput (some lv),
      .insertStep commands false] ++ runTail batch_mode, none)
  | none =>
    let commands :=
      "SUB\n" ++ l_psf ++ "\n" ++ l_sub ++ "\nn\n" ++ l_out ++ "\n"
    ([.getReady, .prepareOutput subtracted_image, .prepareInput (some subtract),
      .prepareInput (some psf_file), .insertStep commands false] ++
       runTail batch_mode, none)

/-- `Daophot.GRoup`: flushes, stages the inputs and the groups output,
enqueues the `GROUP` block; eager mode then runs. The `critical_overlap`
float is carried as its rendered text. -/
def Daophot.GRoup (batch_mode : Bool) (photometry psf_file : String)
    (critical_overlap : String) (groups_file : String) : DaoResult :=
  let commands :=
    "GROUP\n" ++ localOf photometry ++ "\n" ++ localOf psf_file ++ "\n" ++
      critical_overlap ++ "\n" ++ localOf groups_file ++ "\n"
  ([.getReady, .prepareInput (some photometry), .prepareInput (some psf_file),
    .prepareOutput groups_file, .insertStep commands false] ++
     runTail batch_mode, none)

/-- `Daophot.NEda`: same validation as `PHotometry`, then flushes, stages the
four inputs and the output, enqueues the `NEDA` block; eager mode then runs. -/
def Daophot.NEda (batch_mode : Bool) (photoopt : Option String)
    (IS OS : Int) (apertures : Option (List String))
    (psf_file psf_photometry stars_id neda_photometry_file : String) : DaoResult :=
  if photoopt = none && (apertures = none || IS = 0 || OS = 0) then
    ([], some (.runnerValueError
      "Apertures and IS and OS must be provided, explicitly or as photoopt file"))
  else
    match apertures.getD [] with
    | aps =>
      if aps.length > 12 then
        ([], some (.runnerValueError
          "apertures apertures list can contain maximum 12 elements"))
      else
        let commands :=
          "NEDA\n" ++ localOfOpt photoopt ++ "\n" ++
            (if IS ≠ 0 then "IS=" ++ toString IS ++ "\n" else "") ++
            (if OS ≠ 0 then "OS=" ++ toString OS ++ "\n" else "") ++
            apertureLines aps ++
            "\n" ++ localOf psf_file ++ "\n" ++ localOf psf_photometry ++ "\n" ++
            localOf stars_id ++ "\n" ++ localOf neda_photometry_file ++ "\n"
        ([.getReady, .prepareInput photoopt, .prepareInput (some psf_file),
          .prepareInput (some psf_photometry), .prepareInput (some stars_id),
          .prepareOutput neda_photometry_file, .insertStep commands false] ++
           runTail batch_mode, none)

/-- A staging event (`_prepare_input_file` or `_prepare_output_file`). -/
def isPrepare : Event → Bool
  | .prepareInput _ => true
  | .prepareOutput _ => true
  | _ => false

/-- Scan of a trace checking that every staging event is preceded by some
`_get_ready_for_commands` flush (`seen` records whether a flush occurred). -/
def readyBeforePrepareGo (seen : Bool) : List Event → Bool
  | [] => true
  | e :: rest =>
    match e with
    | .getReady => readyBeforePrepareGo true rest
    | .prepareInput _ => seen && readyBeforePrepareGo seen rest
    | .prepareOutput _ => seen && readyBeforePrepareGo seen rest
    | _ => readyBeforePrepareGo seen rest

/-- Every staging event in the trace happens after a flush. -/
def readyBeforePrepare (tr : List Event) : Bool := readyBeforePrepareGo false tr

/-- The command texts of the blocks a trace enqueues
(`_insert_processing_step` payloads, in order). -/
def enqueuedCommands (tr : List Event) : List String :=
  tr.filterMap (fun e =>
    match e with
    | .insertStep c _ => some c
    | _ => none)

/-! ### Command-text observation: splitting into protocol lines -/

/-- Split a character list at every newline (each newline terminates a
segment; a trailing newline yields a final empty segment). -/
def splitNl : List Char → List (List Char)
  | [] => [[]]
  | c :: rest =>
    if c = '\n' then [] :: splitNl rest
    else
      match splitNl rest with
      | [] => [[c]]
      | l :: ls => (c :: l) :: ls

/-- The protocol lines of a command text. -/
def textLines (s : String) : List String :=
  (splitNl s.toList).map (fun l => ⟨l⟩)

/-! ### Object heap (for `Daophot.__deepcopy__`)

Attribute independence after cloning is an aliasing statement, so the three
attributes `daophotopt`, `image`, `options` are modelled as references into
an explicit heap of Python values. -/

/-- A Python attribute value: an (immutable) string or a mutable dict of
option name/value pairs. -/
inductive PyVal
  | str (s : String)
  | dict (d : List (String × Int))
deriving DecidableEq, Repr

/-- The object heap: cells addressed by position. -/
structure Heap where
  cells : List PyVal
deriving DecidableEq, Repr

/-- Allocate a fresh cell holding `v`; returns its (fresh) address. -/
def Heap.alloc (h : Heap) (v : PyVal) : Nat × Heap :=
  (h.cells.length, ⟨h.cells ++ [v]⟩)

/-- Dereference an address. -/
def Heap.read (h : Heap) (a : Nat) : Option PyVal :=
  h.cells[a]?

/-- Mutate the cell at an address in place. -/
def Heap.write (h : Heap) (a : Nat) (v : PyVal) : Heap :=
  ⟨h.cells.set a v⟩

/-- The three `Daophot` attributes `__deepcopy__` copies explicitly, each a
reference into the heap. -/
structure DaophotObj where
  daophotopt : Nat
  image : Nat
  options : Nat
deriving DecidableEq, Repr

/-- `copy.deepcopy` of one attribute value: a dict is duplicated into a
fresh cell (its string/number entries are immutable), while an immutable
string is returned by identity, as Python's `deepcopy` does. -/
def deepcopyVal (h : Heap) (a : Nat) : Nat × Heap :=
  match h.read a with
  | some (.dict d) => h.alloc (.dict d)
  | some (.str _) => (a, h)
  | none => (a, h)

/-- `Daophot.__deepcopy__`: the base `DAORunner.__deepcopy__` (not under the
sources at hand) is modelled from the spec as producing a fresh clone object
whose `daophotopt`, `image` and `options` fields are then overwritten with
deep copies of the original's, in that order. -/
def Daophot.deepcopy (h : Heap) (o : DaophotObj) : DaophotObj × Heap :=
  let r1 := deepcopyVal h o.daophotopt
  let r2 := deepcopyVal r1.2 o.image
  let r3 := deepcopyVal r2.2 o.options
  (⟨r1.1, r2.1, r3.1⟩, r3.2)

/-- Eager/batch run discipline of one method call: when the call succeeds,
eager mode (`batch = false`) ran the child process and batch mode did not. -/
def eagerBatchDiscipline (batch : Bool) (r : DaoResult) : Prop :=
  r.2 = none →
    ((batch = false → Event.run ∈ r.1) ∧ (batch = true → Event.run ∉ r.1))

/-! ## Helper lemmas -/

theorem runTail_discipline (pre : List Event) (batch : Bool)
    (hpre : Event.run ∉ pre) :
    eagerBatchDiscipline batch (pre ++ runTail batch, none) := by
  intro _
  cases batch with
  | false =>
    exact ⟨fun _ => by simp [runTail], fun h => by simp at h⟩
  | true =>
    exact ⟨fun h => by simp at h, fun _ => by simpa [runTail] using hpre⟩

theorem sOrt_trace_eq (batch : Bool) (file : String) (sortBy : Int ⊕ String)
    (dec : Option Bool) :
    (Daophot.SOrt batch file sortBy dec).1 = [Event.getReady] := by
  cases sortBy with
  | inl n => rfl
  | inr s =>
    simp only [Daophot.SOrt]
    split <;> rfl

theorem splitNl_append_nl (a : List Char) (ha : '\n' ∉ a) {b : List Char} :
    splitNl (a ++ '\n' :: b) = a :: splitNl b := by
  induction a with
  | nil => simp [splitNl]
  | cons c a ih =>
    have hc : ¬c = '\n' := fun h => ha (h ▸ List.mem_cons_self c a)
    have ha' : '\n' ∉ a := fun h => ha (List.mem_cons_of_mem c h)
    simp [splitNl, hc, ih ha']

theorem splitNl_tail (a m : List Char) (hm : '\n' ∉ m) :
    ∃ p ps, splitNl (a ++ '\n' :: (m ++ ['\n'])) = p :: (ps ++ [m, []]) := by
  induction a with
  | nil =>
    refine ⟨[], [], ?_⟩
    have h : splitNl (m ++ '\n' :: []) = m :: splitNl [] := splitNl_append_nl m hm
    simp [splitNl, h]
  | cons c a ih =>
    obtain ⟨p, ps, hps⟩ := ih
    by_cases hc : c = '\n'
    · subst hc
      exact ⟨[], p :: ps, by simp [splitNl, hps]⟩
    · exact ⟨c :: p, ps, by simp [splitNl, hc, hps]⟩

theorem Heap.read_alloc_old (h : Heap) (v : PyVal) (a : Nat)
    (ha : a < h.cells.length) : (h.alloc v).2.read a = h.read a := by
  simp only [Heap.alloc, Heap.read]
  exact List.getElem?_append_left ha

theorem Heap.read_alloc_fresh (h : Heap) (v : PyVal) :
    (h.alloc v).2.read h.cells.length = some v := by
  simp only [Heap.alloc, Heap.read]
  exact List.getElem?_concat_length _ _

theorem deepcopyVal_read_old (h : Heap) (src b : Nat) (hb : b < h.cells.length) :
    (deepcopyVal h src).2.read b = h.read b := by
  unfold deepcopyVal
  split
  · exact Heap.read_alloc_old h _ b hb
  · rfl
  · rfl

theorem deepcopyVal_len_le (h : Heap) (src : Nat) :
    h.cells.length ≤ (deepcopyVal h src).2.cells.length := by
  unfold deepcopyVal
  split
  · simp [Heap.alloc]
  · exact Nat.le_refl _
  · exact Nat.le_refl _

theorem deepcopyVal_dict (h : Heap) (src : Nat) (d : List (String × Int))
    (hd : h.read src = some (.dict d)) :
    deepcopyVal h src = (h.cells.length, ⟨h.cells ++ [.dict d]⟩) := by
  unfold deepcopyVal
  rw [hd]
  rfl

theorem occursIn_iff (pat l : List Char) :
    occursIn pat l = true ↔ ∃ p s, l = p ++ pat ++ s := by
  induction l with
  | nil =>
    simp only [occursIn, List.isEmpty_iff]
    constructor
    · rintro rfl
      exact ⟨[], [], rfl⟩
    · rintro ⟨p, s, hps⟩
      have h1 := List.append_eq_nil.mp hps.symm
      exact (List.append_eq_nil.mp h1.1).2
  | cons c rest ih =>
    simp only [occursIn, Bool.or_eq_true, ih]
    constructor
    · rintro (hpre | ⟨p, s, rfl⟩)
      · obtain ⟨t, ht⟩ := List.isPrefixOf_iff_prefix.mp hpre
        exact ⟨[], t, by simp [← ht]⟩
      · exact ⟨c :: p, s, rfl⟩
    · rintro ⟨p, s, hps⟩
      cases p with
      | nil =>
        left
        apply List.isPrefixOf_iff_prefix.mpr
        exact ⟨s, by simpa using hps.symm⟩
      | cons x p =>
        right
        exact ⟨p, s, ((List.cons.injEq c rest x (p ++ pat ++ s)).mp hps).2⟩

theorem consumeFrom_stops_at_first (is_last : String → Nat → Bool) :
    ∀ (lines : List String) (c i : Nat), i < lines.length →
      (∀ j, j < i → is_last (lines.getD j "") (c + j + 1) = false) →
      is_last (lines.getD i "") (c + i + 1) = true →
      OutputLinesProcessor.consumeFrom is_last c lines =
        (lines.take (i + 1), lines.drop (i + 1)) := by
  intro lines
  induction lines with
  | nil => intro c i hi _ _; simp at hi
  | cons l ls ih =>
    intro c i hi hb ht
    cases i with
    | zero =>
      rw [List.getD_cons_zero] at ht
      unfold OutputLinesProcessor.consumeFrom
      rw [if_pos ht]
      simp
    | succ k =>
      have h0 : is_last l (c + 1) = false := by
        have := hb 0 (Nat.succ_pos k)
        simpa using this
      unfold OutputLinesProcessor.consumeFrom
      rw [if_neg (by simp [h0])]
      have hrec := ih (c + 1) k (by simpa using hi)
        (fun j hj => by
          have h := hb (j + 1) (by omega)
          rw [List.getD_cons_succ] at h
          have harith : c + (j + 1) + 1 = c + 1 + j + 1 := by omega
          rw [harith] at h
          exact h)
        (by
          have h := ht
          rw [List.getD_cons_succ] at h
          have harith : c + (k + 1) + 1 = c + 1 + k + 1 := by omega
          rw [harith] at h
          exact h)
      simp [hrec]

/-! ## Claims -/

/-- Claim C1: every call to `Daophot.PHotometry` or `Daophot.NEda` with an
apertures list of more than 12 elements raises `RunnerValueError`
synchronously, with an empty effect trace — no file staging, no I/O, no
command block enqueued. -/
theorem c1_aperture_limit_raises_before_effects (batch : Bool)
    (photoopt : Option String) (pIS pOS : Int) (aps : List String)
    (stars pf psf ppho sid nf : String) (h : 12 < aps.length) :
    (∃ m, Daophot.PHotometry batch photoopt pIS pOS (some aps) stars pf =
        ([], some (.runnerValueError m))) ∧
    (∃ m, Daophot.NEda batch photoopt pIS pOS (some aps) psf ppho sid nf =
        ([], some (.runnerValueError m))) := by
  constructor
  · unfold Daophot.PHotometry
    split
    · exact ⟨_, rfl⟩
    · simp only [Option.getD_some]
      rw [if_pos h]
      exact ⟨_, rfl⟩
  · unfold Daophot.NEda
    split
    · exact ⟨_, rfl⟩
    · simp only [Option.getD_some]
      rw [if_pos h]
      exact ⟨_, rfl⟩

/-- Witness for C1 at a concrete 13-element apertures list. -/
theorem c1_witness :
    ∃ m, Daophot.PHotometry false none 3 12
        (some ["1", "2", "3", "4", "5", "6", "7", "8", "9", "10", "11", "12", "13"])
        "i.coo" "i.ap" = ([], some (.runnerValueError m)) :=
  (c1_aperture_limit_raises_before_effects false none 3 12
    ["1", "2", "3", "4", "5", "6", "7", "8", "9", "10", "11", "12", "13"]
    "i.coo" "i.ap" "i.psf" "i.als" "i.als" "i.nap" (by decide)).1

/-- Claim C2: a line consumed by a `DaophotCommandOutputProcessor` is the
terminal line of its block exactly when its 1-based counter exceeds 2 and the
line contains the `Command:` sentinel; consumption stops at the first such
line, leaving the upstream stream positioned at the next block. -/
theorem c2_sentinel_terminates_block :
    (∀ (line : String) (counter : Nat),
      DaophotCommandOutputProcessor.is_last_one line counter = true ↔
        (2 < counter ∧ ∃ p s, line.toList = p ++ "Command:".toList ++ s)) ∧
    (∀ (lines : List String) (i : Nat), i < lines.length →
      (∀ j, j < i →
        DaophotCommandOutputProcessor.is_last_one (lines.getD j "") (j + 1) = false) →
      DaophotCommandOutputProcessor.is_last_one (lines.getD i "") (i + 1) = true →
      OutputLinesProcessor.consume DaophotCommandOutputProcessor.is_last_one lines =
        (lines.take (i + 1), lines.drop (i + 1))) := by
  constructor
  · intro line counter
    unfold DaophotCommandOutputProcessor.is_last_one
    rw [Bool.and_eq_true, decide_eq_true_eq, occursIn_iff]
  · intro lines i hi hb ht
    exact consumeFrom_stops_at_first _ lines 0 i hi (by simpa using hb) (by simpa using ht)

/-- Witness for C2: a stream whose first line carries the sentinel (the echo,
skipped by the counter guard) and whose fourth line terminates the block. -/
theorem c2_witness :
    OutputLinesProcessor.consume DaophotCommandOutputProcessor.is_last_one
      ["Command: AT", "picture", "sky", "Command:"] =
      (["Command: AT", "picture", "sky", "Command:"], []) :=
  c2_sentinel_terminates_block.2 ["Command: AT", "picture", "sky", "Command:"] 3
    (by decide) (by decide) (by decide)

/-- Claim C3 fails as stated: for a provider whose upstream yields `None`
(e.g. a fresh `StreamKeeper()` whose stream was never bound), `self.stream`
remains `None` after the first call, so a second `get_output_stream` call
consumes again — consumption is not at-most-once for every provider. -/
theorem c3_counterexample :
    (OutputProvider.get_output_stream none
        (OutputProvider.get_output_stream none ⟨none, 0, 0⟩).2).2.consumeCalls = 2 := rfl

/-- Claim C3 (amended): for every provider whose upstream link yields an
actual (non-`None`) stream, the first `get_output_stream` call pulls upstream
once and runs `consume` once; every subsequent `get_output_stream` or
`get_buffer` call returns the cached stream and leaves the state untouched
(no further pull, no further consumption). -/
theorem c3_get_output_stream_idempotent (st : DaoStream) (s0 : ProviderState)
    (h : s0.stream = none) :
    (OutputProvider.get_output_stream (some st) s0).1 = some st ∧
    (OutputProvider.get_output_stream (some st) s0).2.consumeCalls = s0.consumeCalls + 1 ∧
    (OutputProvider.get_output_stream (some st) s0).2.upstreamPulls = s0.upstreamPulls + 1 ∧
    (∀ up2, OutputProvider.get_output_stream up2
        (OutputProvider.get_output_stream (some st) s0).2 =
      (some st, (OutputProvider.get_output_stream (some st) s0).2)) ∧
    (∀ up2 buf, OutputBufferedProcessor.get_buffer up2 buf
        (OutputProvider.get_output_stream (some st) s0).2 =
      (buf, (OutputProvider.get_output_stream (some st) s0).2)) := by
  simp [OutputProvider.get_output_stream, OutputBufferedProcessor.get_buffer, h]

/-- Witness for C3 (amended) at a concrete empty stream. -/
theorem c3_witness :
    (OutputProvider.get_output_stream (some ([] : DaoStream)) ⟨none, 0, 0⟩).2.consumeCalls = 1 ∧
    (∀ up2, OutputProvider.get_output_stream up2
        (OutputProvider.get_output_stream (some ([] : DaoStream)) ⟨none, 0, 0⟩).2 =
      (some [], (OutputProvider.get_output_stream (some ([] : DaoStream)) ⟨none, 0, 0⟩).2)) :=
  ⟨(c3_get_output_stream_idempotent [] ⟨none, 0, 0⟩ rfl).2.1,
   (c3_get_output_stream_idempotent [] ⟨none, 0, 0⟩ rfl).2.2.2.1⟩

/-- Claim C4: on a session not in batch mode, `ATtach` and `OPtions` raise
`RunnerException` synchronously at call time, with an empty effect trace —
nothing enqueued, staged, or written to the child process. -/
theorem c4_batch_only_operations_raise (image_file : String) (arg : OptionsArg) :
    Daophot.ATtach false image_file =
      ([], some (.runnerException
        "ATtach is intented for \"batch\" mode only. Use image property.")) ∧
    Daophot.OPtions false arg =
      ([], some (.runnerException
        "OPtions is intented for \"batch\" mode only. Use set_options().")) :=
  ⟨rfl, rfl⟩

/-- Claim C5: every command-issuing operation (`FInd`, `PHotometry`, `PIck`,
`PSf`, `SUbstar`, `GRoup`, `NEda`) that completes without error invokes
`run` in eager mode and performs no `run` in batch mode. -/
theorem c5_eager_runs_batch_defers (batch : Bool) :
    (∀ av sm f, eagerBatchDiscipline batch (Daophot.FInd batch av sm f)) ∧
    (∀ popt pIS pOS aps st pf,
      eagerBatchDiscipline batch (Daophot.PHotometry batch popt pIS pOS aps st pf)) ∧
    (∀ n m ph pk, eagerBatchDiscipline batch (Daophot.PIck batch n m ph pk)) ∧
    (∀ ph ps pf, eagerBatchDiscipline batch (Daophot.PSf batch ph ps pf)) ∧
    (∀ sub lv out psf, eagerBatchDiscipline batch (Daophot.SUbstar batch sub lv out psf)) ∧
    (∀ ph psf co gf, eagerBatchDiscipline batch (Daophot.GRoup batch ph psf co gf)) ∧
    (∀ popt pIS pOS aps a b c d,
      eagerBatchDiscipline batch (Daophot.NEda batch popt pIS pOS aps a b c d)) := by
  refine ⟨?_, ?_, ?_, ?_, ?_, ?_, ?_⟩
  · intro av sm f
    exact runTail_discipline _ _ (by simp)
  · intro popt pIS pOS aps st pf
    unfold Daophot.PHotometry
    split
    · intro h; simp at h
    · simp only []
      split
      · intro h; simp at h
      · exact runTail_discipline _ _ (by simp)
  · intro n m ph pk
    exact runTail_discipline _ _ (by simp)
  · intro ph ps pf
    exact runTail_discipline _ _ (by simp)
  · intro sub lv out psf
    cases lv with
    | some l => exact runTail_discipline _ _ (by simp)
    | none => exact runTail_discipline _ _ (by simp)
  · intro ph psf co gf
    exact runTail_discipline _ _ (by simp)
  · intro popt pIS pOS aps a b c d
    unfold Daophot.NEda
    split
    · intro h; simp at h
    · simp only []
      split
      · intro h; simp at h
      · exact runTail_discipline _ _ (by simp)

/-- Witness for C5: `FInd` in eager mode runs, in batch mode does not. -/
theorem c5_witness :
    Event.run ∈ (Daophot.FInd false 1 1 "i.coo").1 ∧
    Event.run ∉ (Daophot.FInd true 1 1 "i.coo").1 :=
  ⟨((c5_eager_runs_batch_defers false).1 1 1 "i.coo" rfl).1 rfl,
   ((c5_eager_runs_batch_defers true).1 1 1 "i.coo" rfl).2 rfl⟩

/-- Claim C7: `SOrt` raises `RunnerValueError` when its `by` argument is a
string other than `id`/`x`/`y`/`mag` (case-insensitive), raises
`NotImplementedError` on every other input, and never enqueues a command
block nor runs the child process. -/
theorem c7_sort_raises_never_enqueues (batch : Bool) (file : String)
    (sortBy : Int ⊕ String) (dec : Option Bool) :
    (∀ s, sortBy = Sum.inr s →
      ¬(pyLower s = "id" ∨ pyLower s = "x" ∨ pyLower s = "y" ∨ pyLower s = "mag") →
      Daophot.SOrt batch file sortBy dec =
        ([Event.getReady], some (.runnerValueError
          "parameter by, if string must be either: \"id\", \"x\", \"y\" or \"mag\""))) ∧
    ((∀ s, sortBy = Sum.inr s →
      (pyLower s = "id" ∨ pyLower s = "x" ∨ pyLower s = "y" ∨ pyLower s = "mag")) →
      Daophot.SOrt batch file sortBy dec =
        ([Event.getReady], some (.notImplementedError "SORT command not implemented"))) ∧
    Event.run ∉ (Daophot.SOrt batch file sortBy dec).1 ∧
    (∀ c b, Event.insertStep c b ∉ (Daophot.SOrt batch file sortBy dec).1) := by
  refine ⟨?_, ?_, ?_, ?_⟩
  · intro s hs hnot
    subst hs
    simp only [Daophot.SOrt]
    rw [if_neg (by simp only [Bool.or_eq_true, decide_eq_true_eq, or_assoc]; exact hnot)]
  · intro hvalid
    cases sortBy with
    | inl n => rfl
    | inr t =>
      have hv := hvalid t rfl
      simp only [Daophot.SOrt]
      rw [if_pos (by simp only [Bool.or_eq_true, decide_eq_true_eq, or_assoc]; exact hv)]
  · rw [sOrt_trace_eq]
    simp
  · intro c b
    rw [sOrt_trace_eq]
    simp

/-- Witness for C7: an invalid string raises `RunnerValueError`, a valid
(case-insensitive) string raises `NotImplementedError`. -/
theorem c7_witness :
    Daophot.SOrt false "i.coo" (Sum.inr "z") none =
      ([Event.getReady], some (.runnerValueError
        "parameter by, if string must be either: \"id\", \"x\", \"y\" or \"mag\"")) ∧
    Daophot.SOrt false "i.coo" (Sum.inr "MAG") none =
      ([Event.getReady], some (.notImplementedError "SORT command not implemented")) :=
  ⟨(c7_sort_raises_never_enqueues false "i.coo" (Sum.inr "z") none).1 "z" rfl (by decide),
   (c7_sort_raises_never_enqueues false "i.coo" (Sum.inr "MAG") none).2.1
     (fun s hs => by cases hs; decide)⟩

/-- Claim C8: a typed result accessor over a buffered block that lacks its
expected content marker raises instead of returning a default —
`get_picture_size` raises when the `Picture size:` pattern is absent from the
buffer, and `get_options` raises when no `RE` option is among the parsed
options. -/
theorem c8_missing_marker_raises (buf : String) :
    (searchPicSize buf = none →
      ∃ e, DaophotAttachOP.get_picture_size buf = .error e) ∧
    ((∀ p ∈ pyDict (optFindall buf), p.1 ≠ "RE") →
      ∃ e, DaophotOptOP.get_options buf = .error e) := by
  constructor
  · intro h
    unfold DaophotAttachOP.get_picture_size
    rw [h]
    exact ⟨_, rfl⟩
  · intro h
    simp only [DaophotOptOP.get_options]
    rw [if_neg]
    · exact ⟨_, rfl⟩
    · intro hc
      obtain ⟨p, hp, hpe⟩ := List.any_eq_true.mp hc
      exact h p hp (by simpa using hpe)

/-- Witness for C8: a truncated buffer holding neither marker makes both
accessors raise. -/
theorem c8_witness :
    (∃ e, DaophotAttachOP.get_picture_size "SUB" = .error e) ∧
    (∃ e, DaophotOptOP.get_options "SUB" = .error e) :=
  ⟨(c8_missing_marker_raises "SUB").1 rfl,
   (c8_missing_marker_raises "SUB").2 (by decide)⟩

/-- Claim C6: every file-staging `Daophot` operation flushes all pending
command blocks before staging: in each operation's trace every
`_prepare_input_file`/`_prepare_output_file` event is preceded by a
`_get_ready_for_commands` event. -/
theorem c6_flush_precedes_staging (batch : Bool) :
    (∀ img, readyBeforePrepare (Daophot.ATtach batch img).1 = true) ∧
    (∀ arg, readyBeforePrepare (Daophot.OPtions batch arg).1 = true) ∧
    (∀ av sm f, readyBeforePrepare (Daophot.FInd batch av sm f).1 = true) ∧
    (∀ popt pIS pOS aps st pf,
      readyBeforePrepare (Daophot.PHotometry batch popt pIS pOS aps st pf).1 = true) ∧
    (∀ n m ph pk, readyBeforePrepare (Daophot.PIck batch n m ph pk).1 = true) ∧
    (∀ ph ps pf, readyBeforePrepare (Daophot.PSf batch ph ps pf).1 = true) ∧
    (∀ sub lv out psf,
      readyBeforePrepare (Daophot.SUbstar batch sub lv out psf).1 = true) ∧
    (∀ ph psf co gf, readyBeforePrepare (Daophot.GRoup batch ph psf co gf).1 = true) ∧
    (∀ popt pIS pOS aps a b c d,
      readyBeforePrepare (Daophot.NEda batch popt pIS pOS aps a b c d).1 = true) := by
  refine ⟨?_, ?_, ?_, ?_, ?_, ?_, ?_, ?_, ?_⟩
  · intro img; cases batch <;> rfl
  · intro arg; cases batch <;> cases arg <;> rfl
  · intro av sm f; cases batch <;> rfl
  · intro popt pIS pOS aps st pf
    unfold Daophot.PHotometry
    split
    · rfl
    · simp only []
      split
      · rfl
      · cases batch <;> rfl
  · intro n m ph pk; cases batch <;> rfl
  · intro ph ps pf; cases batch <;> rfl
  · intro sub lv out psf; cases lv <;> cases batch <;> rfl
  · intro ph psf co gf; cases batch <;> rfl
  · intro popt pIS pOS aps a b c d
    unfold Daophot.NEda
    split
    · rfl
    · simp only []
      split
      · rfl
      · cases batch <;> rfl

/-- Claim C9: the `SUB` command block carries the confirmation line `y`
followed by the keep-list filename exactly when `leave_in` is given, and the
confirmation line `n` with no extra filename when `leave_in` is `None`; the
`FIND` command block ends with the confirmation line `yes`. -/
theorem c9_confirmation_lines (batch : Bool)
    (subtract subtracted_image psf_file lv : String) (av sm : Nat) (f : String)
    (h1 : '\n' ∉ psf_file.toList) (h2 : '\n' ∉ subtract.toList)
    (h3 : '\n' ∉ lv.toList) (h4 : '\n' ∉ subtracted_image.toList) :
    (∃ c, enqueuedCommands
        (Daophot.SUbstar batch subtract (some lv) subtracted_image psf_file).1 = [c] ∧
      textLines c = ["SUB", psf_file, subtract, "y", lv, subtracted_image, ""]) ∧
    (∃ c, enqueuedCommands
        (Daophot.SUbstar batch subtract none subtracted_image psf_file).1 = [c] ∧
      textLines c = ["SUB", psf_file, subtract, "n", subtracted_image, ""]) ∧
    (∃ c, enqueuedCommands (Daophot.FInd batch av sm f).1 = [c] ∧
      ∃ p ps, textLines c = p :: (ps ++ ["yes", ""])) := by
  refine ⟨⟨"SUB\n" ++ localOf psf_file ++ "\n" ++ localOf subtract ++ "\ny\n" ++
      localOf lv ++ "\n" ++ localOf subtracted_image ++ "\n", ?_, ?_⟩,
    ⟨"SUB\n" ++ localOf psf_file ++ "\n" ++ localOf subtract ++ "\nn\n" ++
      localOf subtracted_image ++ "\n", ?_, ?_⟩,
    ⟨"FIND\n" ++ toString av ++ "," ++ toString sm ++ "\n" ++ localOf f ++ "\nyes\n",
      ?_, ?_⟩⟩
  · cases batch <;> rfl
  · unfold textLines
    have e1 : ("SUB\n" ++ localOf psf_file ++ "\n" ++ localOf subtract ++ "\ny\n" ++
          localOf lv ++ "\n" ++ localOf subtracted_image ++ "\n").toList
        = ['S', 'U', 'B'] ++ '\n' :: (psf_file.toList ++ '\n' :: (subtract.toList ++ '\n' ::
            (['y'] ++ '\n' :: (lv.toList ++ '\n' ::
              (subtracted_image.toList ++ '\n' :: []))))) := by
      simp [localOf, String.toList, List.append_assoc]
    rw [e1, splitNl_append_nl ['S', 'U', 'B'] (by decide),
        splitNl_append_nl psf_file.toList h1, splitNl_append_nl subtract.toList h2,
        splitNl_append_nl ['y'] (by decide), splitNl_append_nl lv.toList h3,
        splitNl_append_nl subtracted_image.toList h4]
    rfl
  · cases batch <;> rfl
  · unfold textLines
    have e1 : ("SUB\n" ++ localOf psf_file ++ "\n" ++ localOf subtract ++ "\nn\n" ++
          localOf subtracted_image ++ "\n").toList
        = ['S', 'U', 'B'] ++ '\n' :: (psf_file.toList ++ '\n' :: (subtract.toList ++ '\n' ::
            (['n'] ++ '\n' :: (subtracted_image.toList ++ '\n' :: [])))) := by
      simp [localOf, String.toList, List.append_assoc]
    rw [e1, splitNl_append_nl ['S', 'U', 'B'] (by decide),
        splitNl_append_nl psf_file.toList h1, splitNl_append_nl subtract.toList h2,
        splitNl_append_nl ['n'] (by decide),
        splitNl_append_nl subtracted_image.toList h4]
    rfl
  · cases batch <;> rfl
  · unfold textLines
    have e2 : ("FIND\n" ++ toString av ++ "," ++ toString sm ++ "\n" ++ localOf f ++
          "\nyes\n").toList
        = (['F', 'I', 'N', 'D', '\n'] ++ (toString av).toList ++ ',' ::
            (toString sm).toList ++ '\n' :: f.toList) ++ '\n' ::
            (['y', 'e', 's'] ++ ['\n']) := by
      simp [localOf, String.toList, List.append_assoc]
    obtain ⟨p, ps, hps⟩ := splitNl_tail
      (['F', 'I', 'N', 'D', '\n'] ++ (toString av).toList ++ ',' ::
        (toString sm).toList ++ '\n' :: f.toList) ['y', 'e', 's'] (by decide)
    rw [e2, hps]
    exact ⟨⟨p⟩, ps.map (fun l => ⟨l⟩), by simp⟩

/-- Witness for C9 at the default filenames. -/
theorem c9_witness :
    ∃ c, enqueuedCommands
        (Daophot.SUbstar false "i.als" (some "keep.lst") "is.fits" "i.psf").1 = [c] ∧
      textLines c = ["SUB", "i.psf", "i.als", "y", "keep.lst", "is.fits", ""] :=
  (c9_confirmation_lines false "i.als" "is.fits" "i.psf" "keep.lst" 1 1 "i.coo"
    (by decide) (by decide) (by decide) (by decide)).1

/-- Claim C10: `Daophot.__deepcopy__` yields a clone whose `options` mapping
is an independent deep copy: the clone's reference is fresh and holds an
equal dict, a write through either reference leaves the value seen through
the other unchanged, and the copy leaves the original's `options`, `image`
and `daophotopt` cells untouched. -/
theorem c10_deepcopy_options_independent (h : Heap) (o : DaophotObj)
    (d : List (String × Int)) (hopt : h.read o.options = some (.dict d))
    (himg : o.image < h.cells.length) (hdpt : o.daophotopt < h.cells.length) :
    (Daophot.deepcopy h o).1.options ≠ o.options ∧
    (Daophot.deepcopy h o).2.read o.options = some (.dict d) ∧
    (Daophot.deepcopy h o).2.read (Daophot.deepcopy h o).1.options = some (.dict d) ∧
    (∀ v, ((Daophot.deepcopy h o).2.write (Daophot.deepcopy h o).1.options v).read
        o.options = (Daophot.deepcopy h o).2.read o.options) ∧
    (∀ v, ((Daophot.deepcopy h o).2.write o.options v).read
        (Daophot.deepcopy h o).1.options =
      (Daophot.deepcopy h o).2.read (Daophot.deepcopy h o).1.options) ∧
    (Daophot.deepcopy h o).2.read o.image = h.read o.image ∧
    (Daophot.deepcopy h o).2.read o.daophotopt = h.read o.daophotopt := by
  have hoptlt : o.options < h.cells.length :=
    (List.getElem?_eq_some.mp (by simpa [Heap.read] using hopt)).choose
  have hlen1 := deepcopyVal_len_le h o.daophotopt
  have hopt1 : (deepcopyVal h o.daophotopt).2.read o.options = some (.dict d) := by
    rw [deepcopyVal_read_old h o.daophotopt o.options hoptlt]
    exact hopt
  have hlt1 : o.options < (deepcopyVal h o.daophotopt).2.cells.length := by omega
  have hlen2 := deepcopyVal_len_le (deepcopyVal h o.daophotopt).2 o.image
  have hopt2 : (deepcopyVal (deepcopyVal h o.daophotopt).2 o.image).2.read o.options =
      some (.dict d) := by
    rw [deepcopyVal_read_old _ _ _ hlt1]
    exact hopt1
  have hlt2 : o.options <
      (deepcopyVal (deepcopyVal h o.daophotopt).2 o.image).2.cells.length := by omega
  have himg2 : o.image <
      (deepcopyVal (deepcopyVal h o.daophotopt).2 o.image).2.cells.length := by omega
  have hdpt2 : o.daophotopt <
      (deepcopyVal (deepcopyVal h o.daophotopt).2 o.image).2.cells.length := by omega
  have key : Daophot.deepcopy h o =
      (⟨(deepcopyVal h o.daophotopt).1,
        (deepcopyVal (deepcopyVal h o.daophotopt).2 o.image).1,
        (deepcopyVal (deepcopyVal h o.daophotopt).2 o.image).2.cells.length⟩,
       ⟨(deepcopyVal (deepcopyVal h o.daophotopt).2 o.image).2.cells ++ [.dict d]⟩) := by
    unfold Daophot.deepcopy
    dsimp only
    rw [deepcopyVal_dict _ _ d hopt2]
  rw [key]
  refine ⟨?_, ?_, ?_, ?_, ?_, ?_, ?_⟩
  · show (deepcopyVal (deepcopyVal h o.daophotopt).2 o.image).2.cells.length ≠ o.options
    omega
  · have := Heap.read_alloc_old
      (deepcopyVal (deepcopyVal h o.daophotopt).2 o.image).2 (.dict d) o.options hlt2
    simp only [Heap.alloc] at this
    rw [this]
    exact hopt2
  · exact Heap.read_alloc_fresh
      (deepcopyVal (deepcopyVal h o.daophotopt).2 o.image).2 (.dict d)
  · intro v
    simp only [Heap.write, Heap.read]
    exact List.getElem?_set_ne (by omega)
  · intro v
    simp only [Heap.write, Heap.read]
    exact List.getElem?_set_ne (by omega)
  · have := Heap.read_alloc_old
      (deepcopyVal (deepcopyVal h o.daophotopt).2 o.image).2 (.dict d) o.image himg2
    simp only [Heap.alloc] at this
    rw [this, deepcopyVal_read_old _ _ _ (by omega), deepcopyVal_read_old _ _ _ himg]
  · have := Heap.read_alloc_old
      (deepcopyVal (deepcopyVal h o.daophotopt).2 o.image).2 (.dict d) o.daophotopt hdpt2
    simp only [Heap.alloc] at this
    rw [this, deepcopyVal_read_old _ _ _ (by omega), deepcopyVal_read_old _ _ _ hdpt]

/-- Witness for C10 on a three-cell heap shaped like a fresh session. -/
theorem c10_witness :
    (Daophot.deepcopy ⟨[.str "daophot.opt", .str "i.fits", .dict [("WA", -2)]]⟩
        ⟨0, 1, 2⟩).1.options ≠ 2 ∧
    (Daophot.deepcopy ⟨[.str "daophot.opt", .str "i.fits", .dict [("WA", -2)]]⟩
        ⟨0, 1, 2⟩).2.read 2 = some (.dict [("WA", -2)]) :=
  ⟨(c10_deepcopy_options_independent ⟨[.str "daophot.opt", .str "i.fits",
      .dict [("WA", -2)]]⟩ ⟨0, 1, 2⟩ [("WA", -2)] rfl (by decide) (by decide)).1,
   (c10_deepcopy_options_independent ⟨[.str "daophot.opt", .str "i.fits",
      .dict [("WA", -2)]]⟩ ⟨0, 1, 2⟩ [("WA", -2)] rfl (by decide) (by decide)).2.1⟩

end Astwro
